import Mathlib

/-!
Verification of the `resma_nhanes` pipeline (src/descriptive_stats.py and
src/analysis.py) against its natural-language specification.

Shallow embedding conventions:
* pandas/NumPy floating-point numbers are modelled as exact rationals `ℚ`;
  a missing value (NaN in a data column) is modelled as `Option.none`.
* `np.sqrt` is an external library function whose exact value is irrational
  on most rationals; it is threaded through the embedding as an abstract
  parameter `rt : ℚ → ℚ`.  Every theorem about `weighted_stats` is proved
  for an arbitrary `rt`, hence in particular for the real square root.
* Python `round(x, k)` is modelled as `round (x * 10^k) / 10^k` on `ℚ`
  (the claims under study do not depend on the tie-breaking convention).
* IEEE-754 special values matter only for the derived ratio markers
  (division by a zero lymphocyte count); there the embedding uses the
  dedicated type `FVal` with `inf`/`ninf`/`nan` constructors and IEEE
  multiplication/division rules (signed zero is not distinguished, as the
  relevant numerators are products of non-negative survey measurements).
* A pandas DataFrame is modelled as a `List` of typed rows; `merge` is
  modelled by `innerMerge`/`leftMerge` below, which reproduce pandas'
  row-pairing semantics (one output row per matching key pair, `none`
  padding for unmatched left rows in a left join).
-/

/-- Python `round(x, 3)` on the rational model: nearest multiple of `1/1000`. -/
def round3 (q : ℚ) : ℚ := ((round (q * 1000) : ℤ) : ℚ) / 1000

/-- Python `round(x, 5)` on the rational model: nearest multiple of `1/100000`. -/
def round5 (q : ℚ) : ℚ := ((round (q * 100000) : ℤ) : ℚ) / 100000

/-- Dot product `Σᵢ wᵢ·xᵢ`, the numerator of `np.average(x, weights=w)`. -/
def wsum (w x : List ℚ) : ℚ := (List.zipWith (fun a b => a * b) w x).sum

/-- Unweighted mean, as `pandas.Series.mean()` (model of line 32 of
`descriptive_stats.py`). -/
def listMean (s : List ℚ) : ℚ := s.sum / s.length

/-- Unweighted sample variance with denominator `n - 1`, as
`pandas.Series.var()` (default `ddof=1`; model of line 33 of
`descriptive_stats.py`).  For `n ≤ 1` pandas returns NaN while this rational
model returns `0` (division by zero in `ℚ`); no theorem below depends on
that corner. -/
def sampleVar (s : List ℚ) : ℚ :=
  (s.map (fun x => (x - listMean s) ^ 2)).sum / ((s.length : ℚ) - 1)

/-- Model of `weighted_stats` (src/descriptive_stats.py lines 27-36).

`np.average(series, weights=weights)` raises iff the weight total is zero
(`ZeroDivisionError`) or the two series have different lengths; the
`except Exception` branch then falls back to the unweighted mean and
sample variance.  `rt` abstracts `np.sqrt`.  Returns
`(round(mean,3), round(std,3), round(mean-1.96*se,3), round(mean+1.96*se,3))`
with `se = std / sqrt(len(series))`. -/
def weighted_stats (rt : ℚ → ℚ) (series weights : List ℚ) : ℚ × ℚ × ℚ × ℚ :=
  let mv : ℚ × ℚ :=
    if weights.length = series.length ∧ weights.sum ≠ 0 then
      let m := wsum weights series / weights.sum
      (m, wsum weights (series.map (fun x => (x - m) ^ 2)) / weights.sum)
    else
      (listMean series, sampleVar series)
  let std := rt mv.2
  let se := std / rt ((series.length : ℚ))
  (round3 mv.1, round3 std, round3 (mv.1 - 196 / 100 * se), round3 (mv.1 + 196 / 100 * se))

/-- Written from the spec (§4.2): weighted mean `Σwx/Σw`, weighted standard
deviation `sqrt` of the weighted variance about the weighted mean, and the
95% confidence interval `mean ± 1.96 × (weighted_std / sqrt n)` with `n` the
count of included rows; all four outputs rounded to 3 decimal places. -/
def weighted_stats_spec (rt : ℚ → ℚ) (series weights : List ℚ) : ℚ × ℚ × ℚ × ℚ :=
  let mean := wsum weights series / weights.sum
  let variance := wsum weights (series.map (fun x => (x - mean) ^ 2)) / weights.sum
  let std := rt variance
  let se := std / rt ((series.length : ℚ))
  (round3 mean, round3 std, round3 (mean - 196 / 100 * se), round3 (mean + 196 / 100 * se))

/-- Written from the spec (§4.2, fallback clause): the unweighted mean and
sample variance of the series, with the same standard-deviation and
confidence-interval construction applied to them. -/
def unweighted_stats_spec (rt : ℚ → ℚ) (series : List ℚ) : ℚ × ℚ × ℚ × ℚ :=
  let mean := listMean series
  let variance := sampleVar series
  let std := rt variance
  let se := std / rt ((series.length : ℚ))
  (round3 mean, round3 std, round3 (mean - 196 / 100 * se), round3 (mean + 196 / 100 * se))

/-- Model of `categorize_amalgam` (src/descriptive_stats.py lines 102-111).
The amalgam surface count is produced by `count_amalgam_surfaces` followed by
a left join, so its runtime values are the non-negative integers plus NaN:
the input is modelled as `Option ℕ` (`none` = NaN) and the output as
`Option String` (`none` = `np.nan`). -/
def categorize_amalgam : Option ℕ → Option String
  | none => none
  | some s =>
    if s = 0 then some "None"
    else if s ≤ 5 then some "Low"
    else if s ≤ 10 then some "Medium"
    else some "High"

/-- C1: for every surface-count input `s`, `categorize_amalgam` returns
`"None"` iff `s = 0`, `"Low"` iff `1 ≤ s ≤ 5`, `"Medium"` iff `6 ≤ s ≤ 10`,
`"High"` iff `s > 10`, and the undefined value (`none`, modelling `np.nan`)
when the input is missing.  The function is a total Lean function, so it
never raises on its declared domain. -/
theorem categorize_amalgam_thresholds :
    (∀ n : ℕ,
      (categorize_amalgam (some n) = some "None" ↔ n = 0) ∧
      (categorize_amalgam (some n) = some "Low" ↔ 1 ≤ n ∧ n ≤ 5) ∧
      (categorize_amalgam (some n) = some "Medium" ↔ 6 ≤ n ∧ n ≤ 10) ∧
      (categorize_amalgam (some n) = some "High" ↔ 10 < n)) ∧
    categorize_amalgam none = none := by
  refine ⟨fun n => ?_, rfl⟩
  simp only [categorize_amalgam]
  split_ifs with h0 h5 h10 <;>
    refine ⟨?_, ?_, ?_, ?_⟩ <;> simp_all <;> omega

/-- C4: on inputs where the weighted computation succeeds (parallel series of
equal length, nonzero weight total), `weighted_stats` returns exactly the
spec's formula: weighted mean, weighted standard deviation about the weighted
mean, and the 95% CI `mean ± 1.96 × (std / sqrt n)`, all rounded to 3
decimal places.  `rt` abstracts `np.sqrt`. -/
theorem weighted_stats_correct (rt : ℚ → ℚ) (series weights : List ℚ)
    (hlen : weights.length = series.length) (hw : weights.sum ≠ 0) :
    weighted_stats rt series weights = weighted_stats_spec rt series weights := by
  unfold weighted_stats weighted_stats_spec
  rw [if_pos ⟨hlen, hw⟩]

theorem weighted_stats_correct_witness :
    ((([4, 4] : List ℚ).length = ([1, 3] : List ℚ).length) ∧ ([4, 4] : List ℚ).sum ≠ 0) ∧
      weighted_stats id [1, 3] [4, 4] = weighted_stats_spec id [1, 3] [4, 4] :=
  ⟨by norm_num, weighted_stats_correct id [1, 3] [4, 4] (by norm_num) (by norm_num)⟩

/-- C5: on every input where the weighted mean computation fails — the weight
total is zero (NumPy's `ZeroDivisionError`, e.g. all weights zero) or the two
series have different lengths — `weighted_stats` does not propagate the
failure but returns the unweighted mean and unweighted sample variance of the
series, with the same standard-deviation and confidence-interval construction
applied to them. -/
theorem weighted_stats_fallback (rt : ℚ → ℚ) (series weights : List ℚ)
    (hfail : weights.sum = 0 ∨ weights.length ≠ series.length) :
    weighted_stats rt series weights = unweighted_stats_spec rt series := by
  unfold weighted_stats unweighted_stats_spec
  rw [if_neg]
  rintro ⟨hlen, hsum⟩
  rcases hfail with h | h
  · exact hsum h
  · exact h hlen

theorem weighted_stats_fallback_witness :
    (([0, 0] : List ℚ).sum = 0 ∨ ([0, 0] : List ℚ).length ≠ ([1, 3] : List ℚ).length) ∧
      weighted_stats id [1, 3] [0, 0] = unweighted_stats_spec id [1, 3] :=
  ⟨by norm_num, weighted_stats_fallback id [1, 3] [0, 0] (by norm_num)⟩

theorem zipWith_mul_map_left (k : ℚ) (w s : List ℚ) :
    List.zipWith (fun a b => a * b) (w.map (fun x => k * x)) s =
      (List.zipWith (fun a b => a * b) w s).map (fun x => k * x) := by
  induction w generalizing s with
  | nil => simp
  | cons a w ih => cases s with
    | nil => simp
    | cons b s => simp [ih, mul_assoc]

theorem zipWith_mul_maps {α : Type} (f g : α → ℚ) (l : List α) :
    List.zipWith (fun a b => a * b) (l.map f) (l.map g) =
      l.map (fun p => f p * g p) := by
  induction l with
  | nil => rfl
  | cons a l ih => simp [ih]

theorem sum_map_scale (k : ℚ) (l : List ℚ) :
    (l.map (fun x => k * x)).sum = k * l.sum := by
  induction l with
  | nil => simp
  | cons a l ih => simp [ih, mul_add]

/-- C7: the outputs of `weighted_stats` (mean, standard deviation and both
confidence-interval bounds) are unchanged when value and weight rows are
permuted by the same permutation (stated over a paired row list), and
unchanged when every weight is multiplied by the same positive constant.
This holds in the exact-rational model of the floating-point arithmetic, for
any square-root function `rt`. -/
theorem weighted_stats_invariance (rt : ℚ → ℚ) :
    (∀ l l' : List (ℚ × ℚ), l.Perm l' →
      weighted_stats rt (l.map Prod.fst) (l.map Prod.snd) =
        weighted_stats rt (l'.map Prod.fst) (l'.map Prod.snd)) ∧
    (∀ (k : ℚ) (series weights : List ℚ), 0 < k →
      weighted_stats rt series (weights.map (fun x => k * x)) =
        weighted_stats rt series weights) := by
  constructor
  · intro l l' h
    have hkey : ∀ g : ℚ × ℚ → ℚ, (l.map g).sum = (l'.map g).sum :=
      fun g => (h.map g).sum_eq
    have hlen : l.length = l'.length := h.length_eq
    simp only [weighted_stats, wsum, listMean, sampleVar, zipWith_mul_maps,
      List.map_map, List.length_map, Function.comp]
    simp only [hkey, hlen]
  · intro k series weights hk
    have hk0 : k ≠ 0 := ne_of_gt hk
    have hsum : (weights.map (fun x => k * x)).sum = k * weights.sum :=
      sum_map_scale k weights
    have hws : ∀ s : List ℚ,
        wsum (weights.map (fun x => k * x)) s = k * wsum weights s := by
      intro s
      rw [wsum, wsum, zipWith_mul_map_left, sum_map_scale]
    have hcond : ((weights.map (fun x => k * x)).length = series.length ∧
        (weights.map (fun x => k * x)).sum ≠ 0) ↔
        (weights.length = series.length ∧ weights.sum ≠ 0) := by
      rw [List.length_map, hsum]
      simp [mul_eq_zero, hk0]
    by_cases hc : weights.length = series.length ∧ weights.sum ≠ 0
    · simp only [weighted_stats]
      rw [if_pos (hcond.mpr hc), if_pos hc]
      have hm : wsum (weights.map (fun x => k * x)) series /
          (weights.map (fun x => k * x)).sum =
          wsum weights series / weights.sum := by
        rw [hws, hsum, mul_div_mul_left _ _ hk0]
      simp only [hm, hws, hsum, mul_div_mul_left _ _ hk0]
    · simp only [weighted_stats]
      rw [if_neg (fun hx => hc (hcond.mp hx)), if_neg hc]

theorem weighted_stats_invariance_witness :
    (([(1, 2), (3, 4)] : List (ℚ × ℚ)).Perm [(3, 4), (1, 2)] ∧
      weighted_stats id (([(1, 2), (3, 4)] : List (ℚ × ℚ)).map Prod.fst)
          (([(1, 2), (3, 4)] : List (ℚ × ℚ)).map Prod.snd) =
        weighted_stats id (([(3, 4), (1, 2)] : List (ℚ × ℚ)).map Prod.fst)
          (([(3, 4), (1, 2)] : List (ℚ × ℚ)).map Prod.snd)) ∧
    ((0 : ℚ) < 2 ∧
      weighted_stats id [5, 7] (([1, 3] : List ℚ).map (fun x => 2 * x)) =
        weighted_stats id [5, 7] [1, 3]) :=
  ⟨⟨List.Perm.swap _ _ _, (weighted_stats_invariance id).1 _ _ (List.Perm.swap _ _ _)⟩,
   ⟨by norm_num, (weighted_stats_invariance id).2 2 [5, 7] [1, 3] (by norm_num)⟩⟩

/-- IEEE-754-style value for the pandas elementwise arithmetic used in the
ratio-marker derivation (src/descriptive_stats.py lines 65-76): a finite
rational, positive or negative infinity, or NaN.  Signed zero is not
distinguished. -/
inductive FVal where
  | num : ℚ → FVal
  | inf : FVal
  | ninf : FVal
  | nan : FVal
deriving DecidableEq

/-- IEEE-754 multiplication on `FVal` (pandas `*`): NaN propagates,
`±inf × 0 = NaN`, otherwise infinities follow the sign of the finite factor. -/
def FVal.mul : FVal → FVal → FVal
  | nan, _ => nan
  | _, nan => nan
  | num a, num b => num (a * b)
  | inf, inf => inf
  | inf, ninf => ninf
  | ninf, inf => ninf
  | ninf, ninf => inf
  | inf, num b => if 0 < b then inf else if b < 0 then ninf else nan
  | num a, inf => if 0 < a then inf else if a < 0 then ninf else nan
  | ninf, num b => if 0 < b then ninf else if b < 0 then inf else nan
  | num a, ninf => if 0 < a then ninf else if a < 0 then inf else nan

/-- IEEE-754 division on `FVal` (pandas `/`): NaN propagates, a nonzero
finite or infinite numerator divided by zero gives a signed infinity,
`0 / 0 = NaN`, `±inf / ±inf = NaN`, and a finite numerator over an infinite
denominator gives `0`.  Division by zero never raises: pandas/NumPy emit at
most a runtime warning here. -/
def FVal.div : FVal → FVal → FVal
  | nan, _ => nan
  | _, nan => nan
  | num a, num b =>
    if b = 0 then (if 0 < a then inf else if a < 0 then ninf else nan)
    else num (a / b)
  | inf, num b => if b < 0 then ninf else inf
  | ninf, num b => if b < 0 then inf else ninf
  | num _, inf => num 0
  | num _, ninf => num 0
  | inf, inf => nan
  | inf, ninf => nan
  | ninf, inf => nan
  | ninf, ninf => nan

/-- Per-subject raw cell-count fields after the merge
(src/descriptive_stats.py lines 65-71): `LBXWBCSI`, `LBXNEPCT`, `LBXLYPCT`,
`LBXMOPCT`, `LBXPLTSI` as floating-point values.  A missing cell is `nan`;
a column missing from the cycle's file makes `df.get(col, 0)` the scalar `0`
(percent columns) or `df.get(col)` = `None`, i.e. `nan` for every row. -/
structure CBCRow where
  wbc : FVal
  nepct : FVal
  lypct : FVal
  mopct : FVal
  plt : FVal

/-- Derived neutrophil count `WBC * LBXNEPCT / 100` (line 66). -/
def neutro (r : CBCRow) : FVal := (r.wbc.mul r.nepct).div (FVal.num 100)

/-- Derived lymphocyte count `WBC * LBXLYPCT / 100` (line 67). -/
def lympho (r : CBCRow) : FVal := (r.wbc.mul r.lypct).div (FVal.num 100)

/-- Derived monocyte count `WBC * LBXMOPCT / 100` (line 68). -/
def mono (r : CBCRow) : FVal := (r.wbc.mul r.mopct).div (FVal.num 100)

/-- Derived `NLR = Neutro / Lympho` (line 73). -/
def nlr (r : CBCRow) : FVal := (neutro r).div (lympho r)

/-- Derived `MLR = Mono / Lympho` (line 74). -/
def mlr (r : CBCRow) : FVal := (mono r).div (lympho r)

/-- Derived `PLR = Platelets / Lympho` (line 75). -/
def plr (r : CBCRow) : FVal := r.plt.div (lympho r)

/-- Derived `SII = (Neutro * Platelets) / Lympho` (line 76). -/
def sii (r : CBCRow) : FVal := ((neutro r).mul r.plt).div (lympho r)

/-- A value is non-finite/undefined: an infinity or NaN. -/
def nonFinite (v : FVal) : Prop := v = FVal.inf ∨ v = FVal.ninf ∨ v = FVal.nan

theorem div_zero_nonFinite (x : FVal) :
    nonFinite (x.div (FVal.num 0)) ∧ x.div (FVal.num 0) ≠ FVal.num 0 := by
  cases x with
  | num a =>
    by_cases h1 : 0 < a
    · simp [FVal.div, h1, nonFinite]
    · by_cases h2 : a < 0 <;> simp [FVal.div, h1, h2, nonFinite]
  | inf => simp [FVal.div, nonFinite]
  | ninf => simp [FVal.div, nonFinite]
  | nan => simp [FVal.div, nonFinite]

/-- C8: for every subject whose derived lymphocyte count is zero, the derived
ratio markers NLR, MLR, PLR and SII are explicit non-finite values (an
infinity or NaN) and in particular are not zero.  The derivation is a total
function on `FVal` rows (division by zero is given IEEE semantics, matching
pandas, which warns rather than raises). -/
theorem zero_lympho_ratios_nonfinite (r : CBCRow) (h : lympho r = FVal.num 0) :
    (nonFinite (nlr r) ∧ nlr r ≠ FVal.num 0) ∧
    (nonFinite (mlr r) ∧ mlr r ≠ FVal.num 0) ∧
    (nonFinite (plr r) ∧ plr r ≠ FVal.num 0) ∧
    (nonFinite (sii r) ∧ sii r ≠ FVal.num 0) := by
  unfold nlr mlr plr sii
  rw [h]
  exact ⟨div_zero_nonFinite _, div_zero_nonFinite _, div_zero_nonFinite _,
    div_zero_nonFinite _⟩

theorem zero_lympho_ratios_nonfinite_witness :
    lympho ⟨FVal.num 8, FVal.num 60, FVal.num 0, FVal.num 10, FVal.num 250⟩ = FVal.num 0 ∧
      nonFinite (nlr ⟨FVal.num 8, FVal.num 60, FVal.num 0, FVal.num 10, FVal.num 250⟩) :=
  ⟨by norm_num [lympho, FVal.mul, FVal.div],
   (zero_lympho_ratios_nonfinite ⟨FVal.num 8, FVal.num 60, FVal.num 0, FVal.num 10, FVal.num 250⟩
     (by norm_num [lympho, FVal.mul, FVal.div])).1.1⟩

/-- Number of rows of a keyed table whose `SEQN` key equals `s`. -/
def keyCount {α : Type} (t : List (ℕ × α)) (s : ℕ) : ℕ :=
  t.countP fun p => decide (p.1 = s)

/-- pandas `left.merge(right, on="SEQN")` (inner join, the default `how`):
one output row per matching key pair, in left-row order. -/
def innerMerge {α β : Type} (l : List (ℕ × α)) (r : List (ℕ × β)) :
    List (ℕ × α × β) :=
  l.flatMap fun la =>
    (r.filter fun rb => decide (rb.1 = la.1)).map fun rb => (la.1, la.2, rb.2)

/-- pandas `left.merge(right, on="SEQN", how="left")`: matching rows pair up
as in the inner join; a left row with no match survives exactly once, padded
with `none` (NaN) in the right table's columns. -/
def leftMerge {α β : Type} (l : List (ℕ × α)) (r : List (ℕ × β)) :
    List (ℕ × α × Option β) :=
  l.flatMap fun la =>
    if (r.filter fun rb => decide (rb.1 = la.1)).isEmpty then [(la.1, la.2, none)]
    else (r.filter fun rb => decide (rb.1 = la.1)).map fun rb => (la.1, la.2, some rb.2)

/-- Model of `count_amalgam_surfaces` (src/descriptive_stats.py lines 21-24):
a dental row is the subject key `SEQN` together with the values of the
`OHX*TC`/`OHX*FS`/`OHX*FT` tooth-surface columns (`none` = NaN); each row is
mapped to the count of cells equal to the amalgam condition code `2`
(`NaN == 2` is false in pandas, matching `none ≠ some 2`). -/
def count_amalgam_surfaces (dental : List (ℕ × List (Option ℚ))) :
    List (ℕ × ℕ) :=
  dental.map fun d => (d.1, (d.2.filter fun c => decide (c = some 2)).length)

/-- Model of the per-cycle join (src/descriptive_stats.py lines 55-62):
`demo.merge(cbc, on="SEQN")` (inner) followed by left merges with the CRP
table, the mercury table and the amalgam surface counts. -/
def merged_table {Demo Cbc Crp Mer : Type}
    (demo : List (ℕ × Demo)) (cbc : List (ℕ × Cbc)) (crp : List (ℕ × Crp))
    (mercury : List (ℕ × Mer)) (dental : List (ℕ × List (Option ℚ))) :
    List (ℕ × (((Demo × Cbc) × Option Crp) × Option Mer) × Option ℕ) :=
  leftMerge (leftMerge (leftMerge (innerMerge demo cbc) crp) mercury)
    (count_amalgam_surfaces dental)

theorem keyCount_count_amalgam (dental : List (ℕ × List (Option ℚ))) (s : ℕ) :
    keyCount (count_amalgam_surfaces dental) s = keyCount dental s := by
  unfold keyCount count_amalgam_surfaces
  rw [List.countP_map]
  rfl


theorem sum_ite_key {α : Type} (l : List (ℕ × α)) (s : ℕ) (K : ℕ) :
    (l.map (fun la => if la.1 = s then K else 0)).sum = keyCount l s * K := by
  induction l with
  | nil => simp [keyCount]
  | cons a l ih =>
    simp only [List.map_cons, List.sum_cons, ih, keyCount, List.countP_cons]
    by_cases h : a.1 = s <;> simp [h] <;> ring

theorem keyCount_innerMerge {α β : Type} (l : List (ℕ × α)) (r : List (ℕ × β))
    (s : ℕ) : keyCount (innerMerge l r) s = keyCount l s * keyCount r s := by
  have hterm : ∀ la : ℕ × α,
      ((r.filter fun rb => decide (rb.1 = la.1)).map
          (fun rb => (la.1, la.2, rb.2))).countP
        (fun p : ℕ × α × β => decide (p.1 = s)) =
      if la.1 = s then keyCount r s else 0 := by
    intro la
    rw [List.countP_map]
    by_cases h : la.1 = s
    · have hc : ((fun p : ℕ × α × β => decide (p.1 = s)) ∘
          fun rb : ℕ × β => (la.1, la.2, rb.2)) = fun _ => true := by
        funext rb
        simp [Function.comp, h]
      rw [hc, List.countP_true, if_pos h, h, keyCount,
        List.countP_eq_length_filter]
    · have hc : ((fun p : ℕ × α × β => decide (p.1 = s)) ∘
          fun rb : ℕ × β => (la.1, la.2, rb.2)) = fun _ => false := by
        funext rb
        simp [Function.comp, h]
      rw [hc, if_neg h]
      simp [List.countP_false]
  rw [keyCount, innerMerge, List.countP_flatMap]
  simp only [Function.comp_def]
  have hmap : (l.map fun la =>
      ((r.filter fun rb => decide (rb.1 = la.1)).map
          (fun rb => (la.1, la.2, rb.2))).countP
        (fun p : ℕ × α × β => decide (p.1 = s))) =
      l.map (fun la => if la.1 = s then keyCount r s else 0) :=
    List.map_congr_left fun la _ => hterm la
  rw [hmap, sum_ite_key]

theorem keyCount_leftMerge {α β : Type} (l : List (ℕ × α)) (r : List (ℕ × β))
    (s : ℕ) : keyCount (leftMerge l r) s =
      keyCount l s * (if keyCount r s = 0 then 1 else keyCount r s) := by
  have hterm : ∀ la : ℕ × α,
      (if (r.filter fun rb => decide (rb.1 = la.1)).isEmpty then
          [(la.1, la.2, (none : Option β))]
        else (r.filter fun rb => decide (rb.1 = la.1)).map
          (fun rb => (la.1, la.2, some rb.2))).countP
        (fun p : ℕ × α × Option β => decide (p.1 = s)) =
      if la.1 = s then (if keyCount r s = 0 then 1 else keyCount r s) else 0 := by
    intro la
    by_cases h : la.1 = s
    · rw [if_pos h, h]
      have hlen : (r.filter fun rb => decide (rb.1 = s)).length = keyCount r s :=
        (List.countP_eq_length_filter _ _).symm
      by_cases he : (r.filter fun rb => decide (rb.1 = s)).isEmpty
      · have h0 : keyCount r s = 0 := by
          rw [← hlen, List.length_eq_zero]
          exact List.isEmpty_iff.mp he
        rw [if_pos he, if_pos h0]
        simp [List.countP_cons]
      · have h0 : keyCount r s ≠ 0 := by
          rw [← hlen]
          intro hz
          exact he (List.isEmpty_iff.mpr (List.length_eq_zero.mp hz))
        rw [if_neg he, if_neg h0, List.countP_map]
        have hc : ((fun p : ℕ × α × Option β => decide (p.1 = s)) ∘
            fun rb : ℕ × β => (s, la.2, some rb.2)) = fun _ => true := by
          funext rb
          simp [Function.comp]
        rw [hc, List.countP_true, hlen]
    · rw [if_neg h]
      by_cases he : (r.filter fun rb => decide (rb.1 = la.1)).isEmpty
      · rw [if_pos he]
        simp [List.countP_cons, h]
      · rw [if_neg he, List.countP_map]
        have hc : ((fun p : ℕ × α × Option β => decide (p.1 = s)) ∘
            fun rb : ℕ × β => (la.1, la.2, some rb.2)) = fun _ => false := by
          funext rb
          simp [Function.comp, h]
        rw [hc]
        simp [List.countP_false]
  rw [keyCount, leftMerge, List.countP_flatMap]
  simp only [Function.comp_def]
  have hmap : (l.map fun la =>
      (if (r.filter fun rb => decide (rb.1 = la.1)).isEmpty then
          [(la.1, la.2, (none : Option β))]
        else (r.filter fun rb => decide (rb.1 = la.1)).map
          (fun rb => (la.1, la.2, some rb.2))).countP
        (fun p : ℕ × α × Option β => decide (p.1 = s))) =
      l.map (fun la =>
        if la.1 = s then (if keyCount r s = 0 then 1 else keyCount r s) else 0) :=
    List.map_congr_left fun la _ => hterm la
  rw [hmap, sum_ite_key]

theorem leftMerge_none_of_absent {α β : Type} (l : List (ℕ × α))
    (r : List (ℕ × β)) (s : ℕ) (hr : keyCount r s = 0) :
    ∀ row ∈ leftMerge l r, row.1 = s → row.2.2 = none := by
  intro row hrow hk
  simp only [leftMerge, List.mem_flatMap] at hrow
  obtain ⟨la, _, hbr⟩ := hrow
  by_cases he : (r.filter fun rb => decide (rb.1 = la.1)).isEmpty
  · rw [if_pos he] at hbr
    simp only [List.mem_singleton] at hbr
    rw [hbr]
  · rw [if_neg he] at hbr
    simp only [List.mem_map] at hbr
    obtain ⟨rb, hrb, heq⟩ := hbr
    rw [List.mem_filter] at hrb
    exfalso
    have hrb1 : rb.1 = la.1 := of_decide_eq_true hrb.2
    have hrow1 : row.1 = la.1 := by rw [← heq]
    have hla : la.1 = s := by rw [← hrow1, hk]
    have hpos : 0 < keyCount r s := by
      rw [keyCount]
      exact List.countP_pos_iff.mpr ⟨rb, hrb.1, by simp [hrb1, hla]⟩
    omega

theorem leftMerge_payload_mem {α β : Type} (l : List (ℕ × α))
    (r : List (ℕ × β)) :
    ∀ row ∈ leftMerge l r, (row.1, row.2.1) ∈ l := by
  intro row hrow
  simp only [leftMerge, List.mem_flatMap] at hrow
  obtain ⟨la, hla, hbr⟩ := hrow
  by_cases he : (r.filter fun rb => decide (rb.1 = la.1)).isEmpty
  · rw [if_pos he] at hbr
    simp only [List.mem_singleton] at hbr
    rw [hbr]
    exact hla
  · rw [if_neg he] at hbr
    simp only [List.mem_map] at hbr
    obtain ⟨rb, _, heq⟩ := hbr
    rw [← heq]
    exact hla

/-- C10: join semantics of the per-cycle merge.  For a subject key `s` that
occurs exactly once in the demographic table (and at most once in each of the
CRP, mercury and dental tables, as for NHANES `SEQN` keys): if `s` is absent
from the cell-count table the merged table has no row with key `s` (inner
join); if `s` occurs once in the cell-count table the merged table has
exactly one row with key `s`, and absence of `s` from the CRP, mercury or
dental table leaves that row's corresponding component missing (`none`,
i.e. NaN in the padded columns of a pandas left join). -/
theorem merged_table_join_semantics {Demo Cbc Crp Mer : Type}
    (demo : List (ℕ × Demo)) (cbc : List (ℕ × Cbc)) (crp : List (ℕ × Crp))
    (mercury : List (ℕ × Mer)) (dental : List (ℕ × List (Option ℚ))) (s : ℕ)
    (hdemo : keyCount demo s = 1) (hcrp : keyCount crp s ≤ 1)
    (hmer : keyCount mercury s ≤ 1) (hdent : keyCount dental s ≤ 1) :
    (keyCount cbc s = 0 →
      keyCount (merged_table demo cbc crp mercury dental) s = 0) ∧
    (keyCount cbc s = 1 →
      keyCount (merged_table demo cbc crp mercury dental) s = 1 ∧
      (keyCount crp s = 0 → ∀ row ∈ merged_table demo cbc crp mercury dental,
        row.1 = s → row.2.1.1.2 = none) ∧
      (keyCount mercury s = 0 → ∀ row ∈ merged_table demo cbc crp mercury dental,
        row.1 = s → row.2.1.2 = none) ∧
      (keyCount dental s = 0 → ∀ row ∈ merged_table demo cbc crp mercury dental,
        row.1 = s → row.2.2 = none)) := by
  constructor
  · intro h0
    rw [merged_table, keyCount_leftMerge, keyCount_leftMerge, keyCount_leftMerge,
      keyCount_innerMerge, hdemo, h0]
    simp
  · intro h1
    refine ⟨?_, ?_, ?_, ?_⟩
    · rw [merged_table, keyCount_leftMerge, keyCount_leftMerge, keyCount_leftMerge,
        keyCount_innerMerge, keyCount_count_amalgam, hdemo, h1]
      have e1 : ∀ n k : ℕ, k ≤ 1 → n * (if k = 0 then 1 else k) = n := by
        intro n k hk
        interval_cases k <;> simp
      rw [e1 _ _ hcrp, e1 _ _ hmer, e1 _ _ hdent]
    · intro hc0 row hrow hk
      have h4 := leftMerge_payload_mem _ _ row hrow
      have h3 := leftMerge_payload_mem _ _ _ h4
      exact leftMerge_none_of_absent _ _ s hc0 _ h3 hk
    · intro hm0 row hrow hk
      have h4 := leftMerge_payload_mem _ _ row hrow
      exact leftMerge_none_of_absent _ _ s hm0 _ h4 hk
    · intro hd0 row hrow hk
      have hd0c : keyCount (count_amalgam_surfaces dental) s = 0 := by
        rw [keyCount_count_amalgam, hd0]
      exact leftMerge_none_of_absent _ _ s hd0c _ hrow hk

def demoW : List (ℕ × ℕ) := [(1, 0)]

def cbcW : List (ℕ × ℕ) := [(1, 0)]

def crpW : List (ℕ × ℕ) := []

def merW : List (ℕ × ℕ) := [(1, 5)]

def dentalW : List (ℕ × List (Option ℚ)) := []

theorem merged_table_join_semantics_witness :
    keyCount (merged_table demoW cbcW crpW merW dentalW) 1 = 1 :=
  ((merged_table_join_semantics demoW cbcW crpW merW dentalW 1 (by decide)
    (by decide) (by decide) (by decide)).2 (by decide)).1

/-- The six analysed markers (src/analysis.py line 34). -/
inductive Marker where
  | NLR | MLR | PLR | SII | CRP | BloodMercury
deriving DecidableEq

/-- Marker iteration order of `run_t_tests` (src/analysis.py line 34). -/
def markers : List Marker :=
  [Marker.NLR, Marker.MLR, Marker.PLR, Marker.SII, Marker.CRP, Marker.BloodMercury]

/-- The three stratifying variables (src/analysis.py line 36). -/
inductive StrataVar where
  | Gender | Race | AgeGroup
deriving DecidableEq

/-- Strata iteration order of `run_t_tests` (src/analysis.py line 36). -/
def strata_vars : List StrataVar := [StrataVar.Gender, StrataVar.Race, StrataVar.AgeGroup]

/-- The exposure-pair comparison list (src/analysis.py line 35). -/
def comparisons : List (String × String) :=
  [("None", "Low"), ("None", "Medium"), ("None", "High")]

/-- One row of the combined/labelled DataFrame consumed by `run_t_tests`
(after `prepare_groups`): the cycle tag, the three derived stratum labels,
the derived amalgam-group label and the six marker columns.
`none` models NaN (an unmapped or missing value). -/
structure Subj where
  cycle : String
  gender : Option String
  race : Option String
  ageGroup : Option String
  amalgamGroup : Option String
  markerVal : Marker → Option ℚ

/-- Value of a stratifying column for a subject row. -/
def strataVal : StrataVar → Subj → Option String
  | StrataVar.Gender, s => s.gender
  | StrataVar.Race, s => s.race
  | StrataVar.AgeGroup, s => s.ageGroup

/-- One output row of `run_t_tests` (src/analysis.py lines 53-64). -/
structure TRow where
  cycle : String
  strata : StrataVar
  group : String
  marker : Marker
  comparison : String × String
  n1 : ℕ
  n2 : ℕ
  tstat : ℚ
  pvalue : ℚ
  significant : Bool
deriving DecidableEq

/-- The non-missing marker observations of one exposure group inside one
(cycle, stratum) cell: the composition of the `groupby`/selection filters of
src/analysis.py lines 39-49 (`df.groupby("Cycle")`, `groupby(strata)`,
`df_sub[df_sub["Amalgam Group"] == var]`) and the per-marker `dropna`. -/
def group_vals (df : List Subj) (cyc : String) (sv : StrataVar) (sval : String)
    (grp : String) (m : Marker) : List ℚ :=
  (((df.filter fun s => decide (s.cycle = cyc)).filter
        fun s => decide (strataVal sv s = some sval)).filter
      fun s => decide (s.amalgamGroup = some grp)).filterMap
    fun s => s.markerVal m

/-- The rows (zero or one) emitted for a single
(cycle, stratum, comparison, marker) combination (src/analysis.py lines
47-64): skip when either group has fewer than 10 non-missing observations
(`continue`), otherwise run the test kernel `tt` (abstracting
`scipy.stats.ttest_ind(..., equal_var=False)`, which returns the Welch
statistic and p-value) and record group sizes, `round(stat, 3)`,
`round(pval, 5)` and the flag `pval < 0.05` computed from the unrounded
p-value. -/
def tt_rows (tt : List ℚ → List ℚ → ℚ × ℚ) (df : List Subj) (cyc : String)
    (sv : StrataVar) (sval : String) (cmp : String × String) (m : Marker) :
    List TRow :=
  if (group_vals df cyc sv sval cmp.1 m).length < 10 ∨
      (group_vals df cyc sv sval cmp.2 m).length < 10 then []
  else
    [{ cycle := cyc, strata := sv, group := sval, marker := m,
       comparison := cmp,
       n1 := (group_vals df cyc sv sval cmp.1 m).length,
       n2 := (group_vals df cyc sv sval cmp.2 m).length,
       tstat := round3 (tt (group_vals df cyc sv sval cmp.1 m)
         (group_vals df cyc sv sval cmp.2 m)).1,
       pvalue := round5 (tt (group_vals df cyc sv sval cmp.1 m)
         (group_vals df cyc sv sval cmp.2 m)).2,
       significant := decide ((tt (group_vals df cyc sv sval cmp.1 m)
         (group_vals df cyc sv sval cmp.2 m)).2 < 5 / 100) }]

/-- Model of `run_t_tests` (src/analysis.py lines 33-65).  The nested
`groupby` loops iterate over the distinct cycle values and, within a cycle,
the distinct non-missing stratum values (`groupby` drops NaN keys, and the
`pd.isna` guard of line 42-43 re-checks this); `dedup` reproduces the key
sets (pandas sorts group keys, but no claim depends on row order).
`tt` abstracts the `scipy.stats.ttest_ind` kernel. -/
def run_t_tests (tt : List ℚ → List ℚ → ℚ × ℚ) (df : List Subj) : List TRow :=
  ((df.map fun s => s.cycle).dedup).flatMap fun cyc =>
    strata_vars.flatMap fun sv =>
      (((df.filter fun s => decide (s.cycle = cyc)).filterMap
          fun s => strataVal sv s).dedup).flatMap fun sval =>
        comparisons.flatMap fun cmp =>
          markers.flatMap fun m => tt_rows tt df cyc sv sval cmp m

/-- Identifies the result rows of one (cycle, stratum, comparison, marker)
combination. -/
def row_matches (cyc : String) (sv : StrataVar) (sval : String)
    (cmp : String × String) (m : Marker) (r : TRow) : Bool :=
  decide (r.cycle = cyc) && decide (r.strata = sv) && decide (r.group = sval) &&
    decide (r.comparison = cmp) && decide (r.marker = m)

theorem mem_run_t_tests {tt : List ℚ → List ℚ → ℚ × ℚ} {df : List Subj}
    {r : TRow} (hr : r ∈ run_t_tests tt df) :
    ∃ cyc sv sval cmp m, cmp ∈ comparisons ∧
      ¬((group_vals df cyc sv sval cmp.1 m).length < 10 ∨
        (group_vals df cyc sv sval cmp.2 m).length < 10) ∧
      r = { cycle := cyc, strata := sv, group := sval, marker := m,
            comparison := cmp,
            n1 := (group_vals df cyc sv sval cmp.1 m).length,
            n2 := (group_vals df cyc sv sval cmp.2 m).length,
            tstat := round3 (tt (group_vals df cyc sv sval cmp.1 m)
              (group_vals df cyc sv sval cmp.2 m)).1,
            pvalue := round5 (tt (group_vals df cyc sv sval cmp.1 m)
              (group_vals df cyc sv sval cmp.2 m)).2,
            significant := decide ((tt (group_vals df cyc sv sval cmp.1 m)
              (group_vals df cyc sv sval cmp.2 m)).2 < 5 / 100) } := by
  simp only [run_t_tests, List.mem_flatMap] at hr
  obtain ⟨cyc, _, sv, _, sval, _, cmp, hcmp, m, _, hr⟩ := hr
  rw [tt_rows] at hr
  by_cases hlen : (group_vals df cyc sv sval cmp.1 m).length < 10 ∨
      (group_vals df cyc sv sval cmp.2 m).length < 10
  · rw [if_pos hlen] at hr
    simp at hr
  · rw [if_neg hlen] at hr
    simp only [List.mem_singleton] at hr
    exact ⟨cyc, sv, sval, cmp, m, hcmp, hlen, hr⟩

theorem group_vals_sub {df : List Subj} {cyc : String} {sv : StrataVar}
    {sval grp : String} {m : Marker}
    (h : group_vals df cyc sv sval grp m ≠ []) :
    ∃ s ∈ df, s.cycle = cyc ∧ strataVal sv s = some sval := by
  unfold group_vals at h
  obtain ⟨q, hq⟩ := List.exists_mem_of_ne_nil _ h
  obtain ⟨s, hs, _⟩ := List.mem_filterMap.mp hq
  rw [List.mem_filter] at hs
  obtain ⟨hs2, _⟩ := hs
  rw [List.mem_filter] at hs2
  obtain ⟨hs1, hstrata⟩ := hs2
  rw [List.mem_filter] at hs1
  obtain ⟨hdf, hcyc⟩ := hs1
  exact ⟨s, hdf, of_decide_eq_true hcyc, of_decide_eq_true hstrata⟩

theorem run_t_tests_mem_intro (tt : List ℚ → List ℚ → ℚ × ℚ) (df : List Subj)
    (cyc : String) (sv : StrataVar) (sval : String) (cmp : String × String)
    (m : Marker) (hcmp : cmp ∈ comparisons)
    (h1 : 10 ≤ (group_vals df cyc sv sval cmp.1 m).length) :
    ∀ rr ∈ tt_rows tt df cyc sv sval cmp m, rr ∈ run_t_tests tt df := by
  intro rr hrr
  have hne : group_vals df cyc sv sval cmp.1 m ≠ [] := by
    intro hz
    rw [hz] at h1
    simp at h1
  obtain ⟨s, hs, hscyc, hssv⟩ := group_vals_sub hne
  have hcycmem : cyc ∈ (df.map fun x => x.cycle).dedup := by
    rw [List.mem_dedup]
    exact List.mem_map.mpr ⟨s, hs, hscyc⟩
  have hsvalmem : sval ∈ ((df.filter fun x => decide (x.cycle = cyc)).filterMap
      fun x => strataVal sv x).dedup := by
    rw [List.mem_dedup]
    exact List.mem_filterMap.mpr
      ⟨s, List.mem_filter.mpr ⟨hs, decide_eq_true hscyc⟩, hssv⟩
  have hsvmem : sv ∈ strata_vars := by
    cases sv <;> simp [strata_vars]
  have hmmem : m ∈ markers := by
    cases m <;> simp [markers]
  simp only [run_t_tests, List.mem_flatMap]
  exact ⟨cyc, hcycmem, sv, hsvmem, sval, hsvalmem, cmp, hcmp, m, hmmem, hrr⟩

/-- C2: skip rule of the stratified t-test pipeline.  For every
(cycle, stratum, exposure-pair, marker) combination: if either group has
fewer than 10 non-missing marker observations, `run_t_tests` emits no row
for that combination; if both groups have exactly 10, it emits a row (with
both recorded group sizes equal to 10).  `tt` is the arbitrary test kernel
abstracting `scipy.stats.ttest_ind`. -/
theorem run_t_tests_skip_rule (tt : List ℚ → List ℚ → ℚ × ℚ) (df : List Subj)
    (cyc : String) (sv : StrataVar) (sval : String) (cmp : String × String)
    (m : Marker) (hcmp : cmp ∈ comparisons) :
    ((group_vals df cyc sv sval cmp.1 m).length < 10 ∨
      (group_vals df cyc sv sval cmp.2 m).length < 10 →
      (run_t_tests tt df).countP (row_matches cyc sv sval cmp m) = 0) ∧
    ((group_vals df cyc sv sval cmp.1 m).length = 10 →
      (group_vals df cyc sv sval cmp.2 m).length = 10 →
      (run_t_tests tt df).countP
          (fun r => row_matches cyc sv sval cmp m r &&
            decide (r.n1 = 10) && decide (r.n2 = 10)) ≠ 0) := by
  constructor
  · intro hlt
    rw [List.countP_eq_zero]
    intro r hr hmatch
    obtain ⟨cyc2, sv2, sval2, cmp2, m2, _, hlen, hreq⟩ := mem_run_t_tests hr
    subst hreq
    simp only [row_matches, Bool.and_eq_true, decide_eq_true_eq] at hmatch
    obtain ⟨⟨⟨⟨hc, hs⟩, hg⟩, hcp⟩, hm⟩ := hmatch
    subst hc
    subst hs
    subst hg
    subst hcp
    subst hm
    exact hlen hlt
  · intro h1 h2
    have hnotlt : ¬((group_vals df cyc sv sval cmp.1 m).length < 10 ∨
        (group_vals df cyc sv sval cmp.2 m).length < 10) := by
      rw [h1, h2]
      omega
    have hmem := run_t_tests_mem_intro tt df cyc sv sval cmp m hcmp
      (le_of_eq h1.symm)
    rw [tt_rows, if_neg hnotlt] at hmem
    have hrow := hmem _ (List.mem_singleton.mpr rfl)
    intro hz
    rw [List.countP_eq_zero] at hz
    refine hz _ hrow ?_
    simp [row_matches, h1, h2]

theorem lt_of_round5_lt (p : ℚ) (h : round5 p < 5 / 100) : p < 5 / 100 := by
  rw [round5] at h
  have hklt : ((round (p * 100000) : ℤ) : ℚ) < 5000 := by
    have h100 : (0 : ℚ) < 100000 := by norm_num
    have := (div_lt_iff h100).mp h
    linarith
  have hkle : (round (p * 100000) : ℤ) ≤ 4999 := by
    have : (round (p * 100000) : ℤ) < 5000 := by exact_mod_cast hklt
    omega
  have habs := abs_sub_round (p * 100000)
  have hup : p * 100000 - ((round (p * 100000) : ℤ) : ℚ) ≤ 1 / 2 :=
    (abs_le.mp habs).2
  have hkq : ((round (p * 100000) : ℤ) : ℚ) ≤ 4999 := by exact_mod_cast hkle
  linarith

theorem round5_le_of_lt (p : ℚ) (h : p < 5 / 100) : round5 p ≤ 5 / 100 := by
  rw [round5]
  have h1 : p * 100000 < 5000 := by linarith
  have h2 : round (p * 100000) ≤ round (5000 : ℚ) := by
    rw [round_eq, round_eq]
    exact Int.floor_le_floor (by linarith)
  have h3 : round (5000 : ℚ) = 5000 := by
    rw [round_eq]
    norm_num
  have h4 : ((round (p * 100000) : ℤ) : ℚ) ≤ 5000 := by
    exact_mod_cast h2.trans_eq h3
  rw [div_le_iff (by norm_num : (0 : ℚ) < 100000)]
  linarith

/-- C3 (amended): for every emitted t-test result row, the significance flag
equals the comparison `p < 0.05` applied to the exact (unrounded) p-value
returned by the test kernel; in terms of the rounded 5-decimal p-value
stored in the row this gives one-sided guarantees: a recorded p-value
strictly below 0.05 implies the flag is set, and a set flag implies the
recorded p-value is at most 0.05 (a recorded value of exactly 0.05 can
carry either flag, since rounding can cross the threshold). -/
theorem ttest_significance_flag (tt : List ℚ → List ℚ → ℚ × ℚ)
    (df : List Subj) (r : TRow) (hr : r ∈ run_t_tests tt df) :
    (r.pvalue < 5 / 100 → r.significant = true) ∧
    (r.significant = true → r.pvalue ≤ 5 / 100) := by
  obtain ⟨cyc, sv, sval, cmp, m, _, _, hreq⟩ := mem_run_t_tests hr
  subst hreq
  constructor
  · intro hlt
    simp only [decide_eq_true_eq]
    exact lt_of_round5_lt _ hlt
  · intro hsig
    simp only [decide_eq_true_eq] at hsig
    exact round5_le_of_lt _ hsig

def subjNoneW : Subj :=
  { cycle := "A", gender := some "Male", race := none, ageGroup := none,
    amalgamGroup := some "None", markerVal := fun _ => some 1 }

def subjLowW : Subj :=
  { cycle := "A", gender := some "Male", race := none, ageGroup := none,
    amalgamGroup := some "Low", markerVal := fun _ => some 2 }

/-- A 20-subject data set: ten exposure-group `"None"` and ten `"Low"`
subjects in one cycle and one gender stratum, all markers observed. -/
def dfW : List Subj := List.replicate 10 subjNoneW ++ List.replicate 10 subjLowW

/-- A concrete test kernel whose p-value `0.04999999` is strictly below
`0.05` but rounds to `0.05` at 5 decimals. -/
def ttW : List ℚ → List ℚ → ℚ × ℚ := fun _ _ => (1, 4999999 / 100000000)

theorem run_t_tests_skip_rule_witness :
    ("None", "Low") ∈ comparisons ∧
    (group_vals dfW "A" StrataVar.Gender "Male" "None" Marker.NLR).length = 10 ∧
    (group_vals dfW "A" StrataVar.Gender "Male" "Low" Marker.NLR).length = 10 ∧
    (run_t_tests ttW dfW).countP
        (fun r => row_matches "A" StrataVar.Gender "Male" ("None", "Low") Marker.NLR r &&
          decide (r.n1 = 10) && decide (r.n2 = 10)) ≠ 0 :=
  ⟨by decide, by decide, by decide,
    (run_t_tests_skip_rule ttW dfW "A" StrataVar.Gender "Male" ("None", "Low")
      Marker.NLR (by decide)).2 (by decide) (by decide)⟩

/-- The single result row emitted by `run_t_tests ttW dfW`, with its stored
(rounded) p-value `0.05` and its significance flag `true` (computed from the
unrounded p-value `0.04999999 < 0.05`). -/
def rowW : TRow :=
  { cycle := "A", strata := StrataVar.Gender, group := "Male",
    marker := Marker.NLR, comparison := ("None", "Low"), n1 := 10, n2 := 10,
    tstat := 1, pvalue := 5 / 100, significant := true }

theorem rowW_mem : rowW ∈ run_t_tests ttW dfW := by
  have hnotlt : ¬((group_vals dfW "A" StrataVar.Gender "Male" "None" Marker.NLR).length < 10 ∨
      (group_vals dfW "A" StrataVar.Gender "Male" "Low" Marker.NLR).length < 10) := by
    decide
  have hmem := run_t_tests_mem_intro ttW dfW "A" StrataVar.Gender "Male"
    ("None", "Low") Marker.NLR (by decide) (by decide)
  rw [tt_rows, if_neg hnotlt] at hmem
  have hrow := hmem _ (List.mem_singleton.mpr rfl)
  have hn1 : (group_vals dfW "A" StrataVar.Gender "Male" "None" Marker.NLR).length = 10 := by
    decide
  have hn2 : (group_vals dfW "A" StrataVar.Gender "Male" "Low" Marker.NLR).length = 10 := by
    decide
  have hts : round3 ((1 : ℚ)) = 1 := by
    rw [round3, round_eq]
    norm_num
  have hpv : round5 ((4999999 : ℚ) / 100000000) = 5 / 100 := by
    rw [round5, round_eq]
    norm_num
  have hsg : decide (((4999999 : ℚ) / 100000000) < 5 / 100) = true := by
    rw [decide_eq_true_eq]
    norm_num
  simp only [ttW] at hrow
  rw [hn1, hn2, hts, hpv, hsg] at hrow
  exact hrow

/-- C3 counterexample: with the concrete kernel `ttW` (p-value `0.04999999`)
and data set `dfW`, `run_t_tests` emits the row `rowW` whose significance
flag is `true` although the p-value recorded in the row (the rounded value
`0.05`) is not strictly below `0.05` — so the flag is not a function of the
recorded p-value as the claim states. -/
theorem ttest_significance_flag_cex :
    rowW ∈ run_t_tests ttW dfW ∧ rowW.significant = true ∧
      ¬(rowW.pvalue < 5 / 100) :=
  ⟨rowW_mem, rfl, by norm_num [rowW]⟩

theorem ttest_significance_flag_witness :
    (rowW.pvalue < 5 / 100 → rowW.significant = true) ∧
    (rowW.significant = true → rowW.pvalue ≤ 5 / 100) :=
  ttest_significance_flag ttW dfW rowW rowW_mem

/-- One row of a successfully loaded-and-derived per-cycle table
(the `df` built in src/descriptive_stats.py lines 50-78): the cycle tag,
the six marker columns and the survey-weight value `WTMEC2YR`
(`none` = NaN cell). -/
structure DRow where
  cycle : String
  markerVal : Marker → Option ℚ
  wt : Option ℚ

/-- One row of the weighted summary table (src/descriptive_stats.py lines
85-93). -/
structure SRow where
  cycle : String
  marker : Marker
  mean : ℚ
  sd : ℚ
  ciLow : ℚ
  ciHigh : ℚ
  sampleSize : ℕ

/-- A successfully built per-cycle DataFrame.  `hasWt` records whether the
`WTMEC2YR` column is present at all: the demographic file always carries it
in real NHANES data, but a file lacking the column loads fine and only fails
later, when line 81 selects `df[[marker, "WTMEC2YR"]]` (a `KeyError`). -/
structure MergedDF where
  rows : List DRow
  hasWt : Bool

/-- `df[[marker, "WTMEC2YR"]].dropna()` (src/descriptive_stats.py line 81):
the (value, weight) pairs of the rows where both cells are non-missing. -/
def marker_weight_pairs (df : MergedDF) (m : Marker) : List (ℚ × ℚ) :=
  df.rows.filterMap fun r =>
    match r.markerVal m, r.wt with
    | some v, some w => some (v, w)
    | _, _ => none

/-- The summary loop of one cycle (src/descriptive_stats.py lines 80-93):
raises `KeyError` at the first marker if the weight column is absent;
otherwise emits one summary row per marker with non-empty data, using
`weighted_stats`. -/
def cycle_summaries (rt : ℚ → ℚ) (cyc : String) (df : MergedDF) :
    Except String (List SRow) :=
  if df.hasWt then
    Except.ok (markers.filterMap fun m =>
      if (marker_weight_pairs df m).isEmpty then none
      else
        some { cycle := cyc, marker := m,
               mean := (weighted_stats rt ((marker_weight_pairs df m).map Prod.fst)
                 ((marker_weight_pairs df m).map Prod.snd)).1,
               sd := (weighted_stats rt ((marker_weight_pairs df m).map Prod.fst)
                 ((marker_weight_pairs df m).map Prod.snd)).2.1,
               ciLow := (weighted_stats rt ((marker_weight_pairs df m).map Prod.fst)
                 ((marker_weight_pairs df m).map Prod.snd)).2.2.1,
               ciHigh := (weighted_stats rt ((marker_weight_pairs df m).map Prod.fst)
                 ((marker_weight_pairs df m).map Prod.snd)).2.2.2,
               sampleSize := (marker_weight_pairs df m).length })
  else Except.error "KeyError: WTMEC2YR"

/-- The log line printed on a caught per-cycle failure, `Skipped <cycle>:
<error>` (src/descriptive_stats.py line 95). -/
def skip_msg (c e : String) : String := "Skipped " ++ c ++ ": " ++ e

/-- Loop state of `process_cycles`: the `df_all` list of per-cycle tables,
the `all_summaries` accumulator, and the printed log lines. -/
structure PCAcc where
  dfAll : List (List DRow)
  sums : List SRow
  logs : List String

/-- One iteration of the cycle loop (src/descriptive_stats.py lines 42-95).
`lm` abstracts lines 50-78: the five `pyreadstat` loads, the joins and the
marker derivations, which either produce the per-cycle table or raise.  On
success the table is appended to `df_all` first (line 78); a failure inside
the summary loop is caught by the same `except` but leaves the appended
table in place. -/
def process_step (rt : ℚ → ℚ) (lm : String → Except String MergedDF)
    (acc : PCAcc) (c : String) : PCAcc :=
  match lm c with
  | Except.error e => { acc with logs := acc.logs ++ [skip_msg c e] }
  | Except.ok df =>
    match cycle_summaries rt c df with
    | Except.error e =>
      { dfAll := acc.dfAll ++ [df.rows], sums := acc.sums,
        logs := acc.logs ++ [skip_msg c e] }
    | Except.ok s =>
      { dfAll := acc.dfAll ++ [df.rows], sums := acc.sums ++ s,
        logs := acc.logs }

/-- Model of `process_cycles` (src/descriptive_stats.py lines 39-99): run
the per-cycle loop, then `pd.concat(df_all)` — which raises
`ValueError("No objects to concatenate")` when no cycle succeeded — and
return the printed log lines together with the combined table and summary
table. -/
def process_cycles (rt : ℚ → ℚ) (lm : String → Except String MergedDF)
    (cycles : List String) :
    List String × Except String (List DRow × List SRow) :=
  let acc := cycles.foldl (process_step rt lm) ⟨[], [], []⟩
  (acc.logs,
    if acc.dfAll.isEmpty then Except.error "No objects to concatenate"
    else Except.ok (acc.dfAll.flatten, acc.sums))

/-- Contribution of one cycle to `df_all`. -/
def df_of (lm : String → Except String MergedDF) (c : String) :
    List (List DRow) :=
  match lm c with
  | Except.error _ => []
  | Except.ok df => [df.rows]

/-- Contribution of one cycle to the summary accumulator. -/
def sums_of (rt : ℚ → ℚ) (lm : String → Except String MergedDF) (c : String) :
    List SRow :=
  match lm c with
  | Except.error _ => []
  | Except.ok df =>
    match cycle_summaries rt c df with
    | Except.error _ => []
    | Except.ok s => s

/-- Contribution of one cycle to the log. -/
def log_of (rt : ℚ → ℚ) (lm : String → Except String MergedDF) (c : String) :
    List String :=
  match lm c with
  | Except.error e => [skip_msg c e]
  | Except.ok df =>
    match cycle_summaries rt c df with
    | Except.error e => [skip_msg c e]
    | Except.ok _ => []

theorem process_step_eq (rt : ℚ → ℚ) (lm : String → Except String MergedDF)
    (acc : PCAcc) (c : String) :
    process_step rt lm acc c =
      ⟨acc.dfAll ++ df_of lm c, acc.sums ++ sums_of rt lm c,
        acc.logs ++ log_of rt lm c⟩ := by
  obtain ⟨d, s, lg⟩ := acc
  unfold process_step df_of sums_of log_of
  cases h1 : lm c with
  | error e => simp
  | ok df =>
    cases h2 : cycle_summaries rt c df with
    | error e => simp [h2]
    | ok s2 => simp [h2]

theorem process_foldl (rt : ℚ → ℚ) (lm : String → Except String MergedDF)
    (cycles : List String) (acc : PCAcc) :
    cycles.foldl (process_step rt lm) acc =
      ⟨acc.dfAll ++ cycles.flatMap (df_of lm),
        acc.sums ++ cycles.flatMap (sums_of rt lm),
        acc.logs ++ cycles.flatMap (log_of rt lm)⟩ := by
  induction cycles generalizing acc with
  | nil =>
    obtain ⟨d, s, lg⟩ := acc
    simp
  | cons c cs ih =>
    rw [List.foldl_cons, process_step_eq, ih]
    simp [List.flatMap_cons]

theorem process_cycles_eq (rt : ℚ → ℚ) (lm : String → Except String MergedDF)
    (cycles : List String) :
    process_cycles rt lm cycles =
      (cycles.flatMap (log_of rt lm),
        if (cycles.flatMap (df_of lm)).isEmpty then
          Except.error "No objects to concatenate"
        else
          Except.ok ((cycles.flatMap (df_of lm)).flatten,
            cycles.flatMap (sums_of rt lm))) := by
  unfold process_cycles
  rw [process_foldl]
  simp

/-- C6 (amended): for every cycle whose loading fails — any exception raised
in lines 50-78 before the per-cycle table is appended to `df_all`, e.g. one
of the five source files missing — the loop catches the failure, logs it as
`Skipped <cycle>: <error>` with the cycle identifier, contributes zero rows for
that cycle to the combined dataset and to the summary table, and continues:
the combined and summary outputs equal those of a run without that cycle,
so the remaining cycles are unaffected.  (A failure raised later, inside the
per-cycle summary loop — only possible when the loaded demographic table
lacks the `WTMEC2YR` column — is also caught and logged and contributes no
summary rows, but the cycle's rows do remain in the combined dataset; see
the counterexample.) -/
theorem process_cycles_skip_failed (rt : ℚ → ℚ)
    (lm : String → Except String MergedDF) (pre post : List String)
    (c e : String) (h : lm c = Except.error e) :
    (process_cycles rt lm (pre ++ c :: post)).2 =
      (process_cycles rt lm (pre ++ post)).2 ∧
    (process_cycles rt lm (pre ++ c :: post)).1 =
      pre.flatMap (log_of rt lm) ++
        skip_msg c e :: post.flatMap (log_of rt lm) := by
  have hdf : df_of lm c = [] := by simp [df_of, h]
  have hs : sums_of rt lm c = [] := by simp [sums_of, h]
  have hl : log_of rt lm c = [skip_msg c e] := by simp [log_of, h]
  have hcond : (pre ++ c :: post).flatMap (df_of lm) =
      (pre ++ post).flatMap (df_of lm) := by
    simp [List.flatMap_append, List.flatMap_cons, hdf]
  have hsums : (pre ++ c :: post).flatMap (sums_of rt lm) =
      (pre ++ post).flatMap (sums_of rt lm) := by
    simp [List.flatMap_append, List.flatMap_cons, hs]
  constructor
  · rw [process_cycles_eq, process_cycles_eq]
    simp only [hcond, hsums]
  · rw [process_cycles_eq]
    simp [List.flatMap_append, List.flatMap_cons, hl]

def drowC : DRow := { cycle := "A", markerVal := fun _ => none, wt := none }

/-- A loader whose cycle "A" table loads and merges fine but lacks the
`WTMEC2YR` column (realizable: a demographic source file without that
column loads without error; nothing before line 81 touches it). -/
def lmBadC : String → Except String MergedDF :=
  fun _ => Except.ok { rows := [drowC], hasWt := false }

/-- C6 counterexample: a cycle whose processing fails inside the summary
loop (missing `WTMEC2YR` column, a `KeyError` at line 81) is caught and
logged — yet it contributes its row `drowC` to the combined dataset, not
zero rows.  So the claim's guarantee of zero combined-dataset rows does not
hold for every caught processing failure, only for failures before the
append of line 78. -/
theorem process_cycles_skip_failed_cex :
    (process_cycles id lmBadC ["A"]).1 = [skip_msg "A" "KeyError: WTMEC2YR"] ∧
    (process_cycles id lmBadC ["A"]).2 = Except.ok ([drowC], []) :=
  ⟨rfl, rfl⟩

def lmMissC : String → Except String MergedDF :=
  fun c => if c = "A" then Except.error "file missing" else
    Except.ok { rows := [], hasWt := true }

theorem process_cycles_skip_failed_witness :
    lmMissC "A" = Except.error "file missing" ∧
    ((process_cycles id lmMissC ([] ++ "A" :: ["B"])).2 =
        (process_cycles id lmMissC ([] ++ ["B"])).2 ∧
      (process_cycles id lmMissC ([] ++ "A" :: ["B"])).1 =
        ([] : List String).flatMap (log_of id lmMissC) ++
          skip_msg "A" "file missing" ::
            (["B"] : List String).flatMap (log_of id lmMissC)) :=
  ⟨rfl, process_cycles_skip_failed id lmMissC [] ["B"] "A" "file missing" rfl⟩

/-- Whether an `Except` is a success. -/
def except_ok {ε α : Type} : Except ε α → Bool
  | Except.ok _ => true
  | Except.error _ => false

/-- C9: if every configured cycle fails to load, `process_cycles` does not
return an empty combined table: `pd.concat` of the empty `df_all` list
raises `ValueError("No objects to concatenate")` uncaught.  Conversely, as
soon as one cycle loads, the final concatenation succeeds, so the per-cycle
failure isolation yields a non-fatal run exactly when at least one cycle
succeeds. -/
theorem process_cycles_all_fail (rt : ℚ → ℚ)
    (lm : String → Except String MergedDF) (cycles : List String) :
    ((∀ c ∈ cycles, except_ok (lm c) = false) →
      (process_cycles rt lm cycles).2 =
        Except.error "No objects to concatenate") ∧
    ((∃ c ∈ cycles, except_ok (lm c) = true) →
      ∃ out, (process_cycles rt lm cycles).2 = Except.ok out) := by
  constructor
  · intro h
    rw [process_cycles_eq]
    have hnil : cycles.flatMap (df_of lm) = [] := by
      rw [List.flatMap_eq_nil_iff]
      intro c hc
      have hv := h c hc
      cases hlm : lm c with
      | error e => simp [df_of, hlm]
      | ok df =>
        rw [hlm] at hv
        simp [except_ok] at hv
    rw [hnil]
    rfl
  · rintro ⟨c, hc, hok⟩
    rw [process_cycles_eq]
    cases hlm : lm c with
    | error e =>
      rw [hlm] at hok
      simp [except_ok] at hok
    | ok df =>
      have hdfc : df_of lm c = [df.rows] := by simp [df_of, hlm]
      have hne : cycles.flatMap (df_of lm) ≠ [] := by
        intro hz
        have := List.flatMap_eq_nil_iff.mp hz c hc
        rw [hdfc] at this
        cases this
      rw [if_neg (fun hb => hne (List.isEmpty_iff.mp hb))]
      exact ⟨_, rfl⟩

def lmFailC : String → Except String MergedDF := fun _ => Except.error "missing"

theorem process_cycles_all_fail_witness :
    (process_cycles id lmFailC ["A", "B"]).2 =
      Except.error "No objects to concatenate" :=
  (process_cycles_all_fail id lmFailC ["A", "B"]).1 (by decide)

theorem categorize_amalgam_thresholds_witness :
    (categorize_amalgam (some 3) = some "Low" ↔ 1 ≤ 3 ∧ 3 ≤ 5) ∧
      categorize_amalgam none = none :=
  ⟨(categorize_amalgam_thresholds.1 3).2.1, categorize_amalgam_thresholds.2⟩
